import Mathlib

/-!
# MyFormat parser: a shallow embedding of `myformat_parser.hpp`

The C++ routine `myformat::Parser::parse(const uint8_t* data, size_t size)` is
embedded as a pure function.  Conventions of the embedding:

* the memory behind `data` is a total function from byte offsets to bytes; the
  argument `size` is the number of bytes the caller declares readable.  Every
  byte access goes through `readByte`, which faults when the offset is not
  below `size`;
* `uint32_t` arithmetic is arithmetic on `Nat` reduced modulo `2 ^ 32`;
  `int32_t` values are `Int`, the conversion from `uint32_t` is two's
  complement, and a signed multiplication leaving the `int32_t` range is a
  fault (it is undefined behaviour in C++);
* `std::memcpy` of four bytes into a `uint32_t` is a little-endian read (the
  byte order the header comment of the source fixes);
* `std::vector::resize` always succeeds (unbounded heap).
-/

namespace MyFormat

/-- One octet of the input. -/
abbrev Byte := Fin 256

/-- The memory reachable from a `const uint8_t*`: the byte at each offset. -/
abbrev Memory := Nat → Byte

/-- Ways in which the C++ code leaves defined behaviour. -/
inductive Fault where
  | outOfBounds
  | signedOverflow
deriving DecidableEq

/-- The constant `myformat::MAGIC`. -/
def MAGIC : Nat := 0x4D46594D

/-- The record `myformat::ParsedData`, with the member initialisers of the source. -/
structure ParsedData where
  valid : Bool := false
  magic : Nat := 0
  count1 : Nat := 0
  count2 : Nat := 0
  array1 : List Nat := []
  array2 : List Nat := []
  totalSize : Nat := 0
deriving DecidableEq

/-- Reduction of a value to `uint32_t`. -/
def u32 (n : Nat) : Nat := n % 2 ^ 32

/-- Conversion of a `uint32_t` value to `int32_t` (two's complement). -/
def toInt32 (n : Nat) : Int :=
  if n % 2 ^ 32 < 2 ^ 31 then ((n % 2 ^ 32 : Nat) : Int) else ((n % 2 ^ 32 : Nat) : Int) - 2 ^ 32

/-- A bounds-checked read of the byte at `data + off`. -/
def readByte (data : Memory) (size off : Nat) : Except Fault Byte :=
  if off < size then .ok (data off) else .error .outOfBounds

/-- The little-endian value of the four bytes at `off`. -/
def le32 (data : Memory) (off : Nat) : Nat :=
  (data off).val + 256 * (data (off + 1)).val + 65536 * (data (off + 2)).val
    + 16777216 * (data (off + 3)).val

/-- The call `std::memcpy(&x, data + off, 4)` for a `uint32_t x`: four checked byte
reads, assembled little-endian. -/
def memcpy4 (data : Memory) (size off : Nat) : Except Fault Nat :=
  match readByte data size off with
  | .error f => .error f
  | .ok b0 =>
    match readByte data size (off + 1) with
    | .error f => .error f
    | .ok b1 =>
      match readByte data size (off + 2) with
      | .error f => .error f
      | .ok b2 =>
        match readByte data size (off + 3) with
        | .error f => .error f
        | .ok b3 => .ok (b0.val + 256 * b1.val + 65536 * b2.val + 16777216 * b3.val)

/-- The loop `for (int32_t i = ..., e = count; i < e; i++) memcpy(&arr[i], data + base + i * 4, 4)`
started at index `i` with `k` iterations left (`k = e - i`); `i * 4` is an `int`
multiplication. -/
def readLoop (data : Memory) (size base : Nat) : Nat → Nat → List Nat → Except Fault (List Nat)
  | 0, _, arr => .ok arr
  | k + 1, i, arr =>
    if 2 ^ 31 ≤ i * 4 then .error .signedOverflow
    else
      match memcpy4 data size (base + i * 4) with
      | .error f => .error f
      | .ok v => readLoop data size base k (i + 1) (arr.set i v)

/-- The expression `12 + (count1 + count2) * 4`, evaluated in `uint32_t` as in the
source, before it is widened to `size_t`. -/
def requiredSize (count1 count2 : Nat) : Nat :=
  u32 (12 + u32 (u32 (count1 + count2) * 4))

/-- The expression `12 + count1 * 4` of `array2Offset`, evaluated in `uint32_t`. -/
def array2Offset (count1 : Nat) : Nat :=
  u32 (12 + u32 (count1 * 4))

/-- The arrays part of `Parser::parse`, entered once the header passed both checks. -/
def parseArrays (data : Memory) (size magic count1 count2 : Nat) : Except Fault ParsedData :=
  match readLoop data size 12 (toInt32 count1).toNat 0 (List.replicate count1 0) with
  | .error f => .error f
  | .ok array1 =>
    match readLoop data size (array2Offset count1) (toInt32 count2).toNat 0
        (List.replicate count2 0) with
    | .error f => .error f
    | .ok array2 =>
      .ok { valid := true, magic := magic, count1 := count1, count2 := count2,
            array1 := array1, array2 := array2, totalSize := requiredSize count1 count2 }

/-- The header checks of `Parser::parse`, once the three header fields are read. -/
def parseHeader (data : Memory) (size magic count1 count2 : Nat) : Except Fault ParsedData :=
  if magic ≠ MAGIC then
    .ok { magic := magic, count1 := count1, count2 := count2 }
  else if size < requiredSize count1 count2 then
    .ok { magic := magic, count1 := count1, count2 := count2 }
  else
    parseArrays data size magic count1 count2

/-- The function `myformat::Parser::parse`. -/
def parse (data : Memory) (size : Nat) : Except Fault ParsedData :=
  if size < 12 then .ok {}
  else
    match memcpy4 data size 0 with
    | .error f => .error f
    | .ok magic =>
      match memcpy4 data size 4 with
      | .error f => .error f
      | .ok count1 =>
        match memcpy4 data size 8 with
        | .error f => .error f
        | .ok count2 => parseHeader data size magic count1 count2

/-- The function `myformat::Parser::validateMagic`. -/
def validateMagic (data : Memory) (size : Nat) : Except Fault Bool :=
  if size < 4 then .ok false
  else
    match memcpy4 data size 0 with
    | .error f => .error f
    | .ok magic => .ok (decide (magic = MAGIC))

/-- The pattern-language helper `myformat::get_count`: the first twelve bytes of the
file are copied into `header`, and `parse(header, 12)` decides the answer. -/
def get_count (file : Memory) (index : Nat) : Except Fault Nat :=
  match parse file 12 with
  | .error f => .error f
  | .ok parsed =>
    if parsed.valid = false then .ok 0
    else .ok (if index = 0 then parsed.count1 else parsed.count2)

/-- The memory holding the bytes of `l` from offset `0` on (zero beyond them). -/
def ofList (l : List Byte) : Memory := fun i => l.getD i 0

/-- The four bytes of the little-endian encoding of a `uint32_t`. -/
def encode32 (n : Nat) : List Byte :=
  [Fin.ofNat n, Fin.ofNat (n / 256), Fin.ofNat (n / 65536), Fin.ofNat (n / 16777216)]

/-- The 24-byte example record: magic, counts 2 and 1, arrays `[0x11, 0x22]` and `[0x33]`. -/
def exampleBytes : List Byte :=
  encode32 0x4D46594D ++ encode32 2 ++ encode32 1 ++ encode32 0x11 ++ encode32 0x22
    ++ encode32 0x33

/-- The value the loop of `readLoop` leaves in the array when no access faults. -/
def fill (data : Memory) (base : Nat) : Nat → Nat → List Nat → List Nat
  | 0, _, arr => arr
  | k + 1, i, arr => fill data base k (i + 1) (arr.set i (le32 data (base + i * 4)))

/-! ## Concrete buffers -/

/-- A 12-byte header with `count1 = 0x80000000` and `count2 = 0`. -/
def wrapBytes : List Byte :=
  encode32 0x4D46594D ++ encode32 0x80000000 ++ encode32 0

/-- The header `wrapBytes` followed by one array element of value 1. -/
def wrapBytes16 : List Byte := wrapBytes ++ encode32 1

/-- A 12-byte header with `count1 = count2 = 0x80000000`. -/
def wrapBothBytes : List Byte :=
  encode32 0x4D46594D ++ encode32 0x80000000 ++ encode32 0x80000000

/-- A 12-byte header with `count1 = 0x40000000` and `count2 = 0`. -/
def overreadBytes : List Byte :=
  encode32 0x4D46594D ++ encode32 0x40000000 ++ encode32 0

/-- A header with `count1 = 1`, `count2 = 0xFFFFFFFF`, followed by one element of value 1. -/
def spillBytes : List Byte :=
  encode32 0x4D46594D ++ encode32 1 ++ encode32 0xFFFFFFFF ++ encode32 1

/-- The buffer `spillBytes` with its last four bytes replaced by the value 2. -/
def spillBytesAlt : List Byte :=
  encode32 0x4D46594D ++ encode32 1 ++ encode32 0xFFFFFFFF ++ encode32 2

/-- The example record with the first byte of its magic altered. -/
def badMagicBytes : List Byte :=
  encode32 0x4D46594E ++ encode32 2 ++ encode32 1 ++ encode32 0x11 ++ encode32 0x22
    ++ encode32 0x33

/-! ## The pattern tree of `pl_myformat_type.cpp`

The function `createPatternFromParsedData` builds a tree of host pattern objects.  Only
what the function itself sets is kept: offset, size, names, array index and children.
Offsets are `u64` values; `size_t` is taken to be 64 bits wide. -/

/-- Reduction of a value to `u64`. -/
def u64 (n : Nat) : Nat := n % 2 ^ 64

/-- A pattern without children (`PatternString`, `PatternUnsigned`), with the variable
name and array index the code sets on it, if any. -/
structure LeafPattern where
  offset : Nat
  size : Nat
  typeName : String
  variableName : Option String
  arrayIndex : Option Nat
deriving DecidableEq

/-- A `PatternArrayDynamic` with its element patterns. -/
structure ArrayPattern where
  offset : Nat
  size : Nat
  typeName : String
  variableName : Option String
  entries : List LeafPattern
deriving DecidableEq

/-- A member of the root struct pattern. -/
inductive Member where
  | leaf (p : LeafPattern)
  | array (p : ArrayPattern)
deriving DecidableEq

/-- The root `PatternStruct` with its members. -/
structure StructPattern where
  offset : Nat
  size : Nat
  typeName : String
  variableName : Option String
  entries : List Member
deriving DecidableEq

/-- The loop `for (size_t i = 0; i < n; i++)` that pushes one `PatternUnsigned` per
array element, at `offset + i * sizeof(u32)`, with array index `i`. -/
def arrayEntries (offset n : Nat) : List LeafPattern :=
  (List.range n).map fun i =>
    { offset := u64 (offset + u64 (i * 4)), size := 4, typeName := "u32",
      variableName := none, arrayIndex := some i }

/-- The function `createPatternFromParsedData`.  The size given to the `array1` pattern
is `pCount1->getValue().toUnsigned() * sizeof(u32)`, where `getValue` is evaluated by
the host library on its data source; that value is the parameter `count1Value`. -/
def createPatternFromParsedData (count1Value : Nat) (data : ParsedData) (baseOffset : Nat) :
    StructPattern :=
  let pMagic : LeafPattern :=
    { offset := baseOffset, size := 4, typeName := "char[]", variableName := some "magic",
      arrayIndex := none }
  let offset1 := u64 (baseOffset + 4)
  let pCount1 : LeafPattern :=
    { offset := offset1, size := 4, typeName := "u32", variableName := some "count1",
      arrayIndex := none }
  let offset2 := u64 (offset1 + 4)
  let pCount2 : LeafPattern :=
    { offset := offset2, size := 4, typeName := "u32", variableName := some "count2",
      arrayIndex := none }
  let offset3 := u64 (offset2 + 4)
  let members : List Member := [.leaf pMagic, .leaf pCount1, .leaf pCount2]
  let pArray1 : ArrayPattern :=
    { offset := offset3, size := u64 (count1Value * 4), typeName := "u32",
      variableName := some "array1", entries := arrayEntries offset3 data.array1.length }
  let members1 := if data.array1.isEmpty then members else members ++ [.array pArray1]
  let offset4 :=
    if data.array1.isEmpty then offset3 else u64 (offset3 + u64 (data.array1.length * 4))
  let pArray2 : ArrayPattern :=
    { offset := offset4, size := u64 (data.array2.length * 4), typeName := "u32",
      variableName := some "array2", entries := arrayEntries offset4 data.array2.length }
  let members2 := if data.array2.isEmpty then members1 else members1 ++ [.array pArray2]
  { offset := baseOffset, size := data.totalSize, typeName := "MyFormat",
    variableName := some "file", entries := members2 }

/-- The childless patterns below a member, in order. -/
def Member.leaves : Member → List LeafPattern
  | .leaf p => [p]
  | .array a => a.entries

/-- The childless patterns of the tree (header fields and array elements), in order. -/
def StructPattern.leaves (p : StructPattern) : List LeafPattern :=
  p.entries.flatMap Member.leaves

/-- The total size of the childless patterns of the tree. -/
def StructPattern.leafSizes (p : StructPattern) : Nat :=
  (p.leaves.map (fun l => l.size)).sum

/-- The patterns of the list lie end to end: the first starts at `start`, each next one
starts where the previous one ends, and the last ends at `stop`. -/
def tiles : Nat → List LeafPattern → Nat → Prop
  | start, [], stop => start = stop
  | start, p :: ps, stop => p.offset = start ∧ tiles (start + p.size) ps stop

/-! ## Reads -/

theorem memcpy4_ok {data : Memory} {size off : Nat} (h : off + 4 ≤ size) :
    memcpy4 data size off = .ok (le32 data off) := by
  have h0 : off < size := by omega
  have h1 : off + 1 < size := by omega
  have h2 : off + 2 < size := by omega
  have h3 : off + 3 < size := by omega
  simp [memcpy4, readByte, le32, h0, h1, h2, h3]

theorem memcpy4_oob {data : Memory} {size off : Nat} (h : size < off + 4) :
    memcpy4 data size off = .error .outOfBounds := by
  unfold memcpy4 readByte
  by_cases h0 : off < size
  · by_cases h1 : off + 1 < size
    · by_cases h2 : off + 2 < size
      · have h3 : ¬ off + 3 < size := by omega
        simp [h0, h1, h2, h3]
      · simp [h0, h1, h2]
    · simp [h0, h1]
  · simp [h0]

theorem le32_lt (data : Memory) (off : Nat) : le32 data off < 2 ^ 32 := by
  have h0 := (data off).isLt
  have h1 := (data (off + 1)).isLt
  have h2 := (data (off + 2)).isLt
  have h3 := (data (off + 3)).isLt
  unfold le32
  omega

/-! ## The array loop -/

theorem readLoop_ok (data : Memory) (size base : Nat) :
    ∀ (k i : Nat) (arr : List Nat),
      (k = 0 ∨ ((i + k) * 4 ≤ 2 ^ 31 ∧ base + (i + k) * 4 ≤ size)) →
      readLoop data size base k i arr = .ok (fill data base k i arr)
  | 0, _, _, _ => rfl
  | k + 1, i, arr, h => by
    have hb : (i + (k + 1)) * 4 ≤ 2 ^ 31 ∧ base + (i + (k + 1)) * 4 ≤ size := by
      rcases h with h | h
      · omega
      · exact h
    have hov : ¬ 2 ^ 31 ≤ i * 4 := by omega
    have hrd : memcpy4 data size (base + i * 4) = .ok (le32 data (base + i * 4)) :=
      memcpy4_ok (by omega)
    have ih := readLoop_ok data size base k (i + 1) (arr.set i (le32 data (base + i * 4)))
      (Or.inr ⟨by omega, by omega⟩)
    simp only [readLoop, fill, hov, if_false, hrd, ih]

theorem readLoop_oob (data : Memory) (size base k i : Nat) (arr : List Nat)
    (hk : 0 < k) (hi : i * 4 < 2 ^ 31) (hs : size < base + i * 4 + 4) :
    readLoop data size base k i arr = .error .outOfBounds := by
  obtain ⟨k, rfl⟩ : ∃ m, k = m + 1 := ⟨k - 1, by omega⟩
  have hov : ¬ 2 ^ 31 ≤ i * 4 := by omega
  simp only [readLoop, hov, if_false, memcpy4_oob hs]

theorem fill_length (data : Memory) (base : Nat) :
    ∀ (k i : Nat) (arr : List Nat), (fill data base k i arr).length = arr.length
  | 0, _, _ => rfl
  | k + 1, i, arr => by
    simp [fill, fill_length data base k]

theorem fill_getElem? (data : Memory) (base : Nat) :
    ∀ (k i : Nat) (arr : List Nat) (j : Nat),
      (fill data base k i arr)[j]? =
        if i ≤ j ∧ j < i + k ∧ j < arr.length then some (le32 data (base + j * 4)) else arr[j]?
  | 0, i, arr, j => by
    have : ¬ (i ≤ j ∧ j < i ∧ j < arr.length) := by omega
    simp [fill, this]
  | k + 1, i, arr, j => by
    rw [fill, fill_getElem? data base k]
    by_cases hij : i = j
    · subst hij
      by_cases hl : i < arr.length
      · simp [hl, List.getElem?_set]
      · have : arr.length ≤ i := by omega
        simp [hl, List.getElem?_set, this]
    · have e1 : (i + 1 ≤ j ∧ j < i + 1 + k ∧ j < (arr.set i (le32 data (base + i * 4))).length)
          ↔ (i ≤ j ∧ j < i + (k + 1) ∧ j < arr.length) := by
        simp only [List.length_set]
        omega
      simp only [e1, List.getElem?_set, hij, if_false]

theorem fill_replicate (data : Memory) (base c : Nat) :
    fill data base c 0 (List.replicate c 0) =
      (List.range c).map (fun i => le32 data (base + i * 4)) := by
  apply List.ext_getElem?
  intro j
  rw [fill_getElem?]
  by_cases hj : j < c
  · simp [hj, List.getElem?_range]
  · have h1 : ¬ (0 ≤ j ∧ j < 0 + c ∧ j < (List.replicate c (0 : Nat)).length) := by
      simp; omega
    have h2 : c ≤ j := by omega
    have h3 : (List.range c)[j]? = none := by simp [h2]
    have h4 : (List.replicate c (0 : Nat))[j]? = none := by simp [h2]
    rw [if_neg h1, h4, List.getElem?_map, h3]
    rfl

/-! ## Machine arithmetic -/

theorem toInt32_toNat_of_lt {c : Nat} (h : c < 2 ^ 31) : (toInt32 c).toNat = c := by
  have h1 : c % 2 ^ 32 = c := Nat.mod_eq_of_lt (by omega)
  have h2 : c % 2 ^ 32 < 2 ^ 31 := by omega
  unfold toInt32
  rw [if_pos h2, h1]
  exact Int.toNat_ofNat c

theorem toInt32_toNat_of_ge {c : Nat} (h : 2 ^ 31 ≤ c) (h32 : c < 2 ^ 32) :
    (toInt32 c).toNat = 0 := by
  have h1 : c % 2 ^ 32 = c := Nat.mod_eq_of_lt h32
  have h2 : ¬ c % 2 ^ 32 < 2 ^ 31 := by omega
  unfold toInt32
  rw [if_neg h2, h1]
  omega

theorem requiredSize_exact {c1 c2 : Nat} (h : 12 + 4 * (c1 + c2) < 2 ^ 32) :
    requiredSize c1 c2 = 12 + 4 * (c1 + c2) := by
  unfold requiredSize u32
  omega

theorem array2Offset_exact {c1 : Nat} (h : 12 + 4 * c1 < 2 ^ 32) :
    array2Offset c1 = 12 + 4 * c1 := by
  unfold array2Offset u32
  omega

/-! ## The parser, stage by stage -/

theorem parse_lt_12 (data : Memory) (size : Nat) (h : size < 12) :
    parse data size = .ok {} := by
  simp [parse, h]

theorem parse_ge_12 (data : Memory) (size : Nat) (h : 12 ≤ size) :
    parse data size = parseHeader data size (le32 data 0) (le32 data 4) (le32 data 8) := by
  have h0 : ¬ size < 12 := by omega
  have r0 : memcpy4 data size 0 = .ok (le32 data 0) := memcpy4_ok (by omega)
  have r4 : memcpy4 data size 4 = .ok (le32 data 4) := memcpy4_ok (by omega)
  have r8 : memcpy4 data size 8 = .ok (le32 data 8) := memcpy4_ok (by omega)
  simp only [parse, h0, if_false, r0, r4, r8]

theorem parseArrays_valid {data : Memory} {size magic c1 c2 : Nat} {r : ParsedData}
    (h : parseArrays data size magic c1 c2 = .ok r) : r.valid = true := by
  unfold parseArrays at h
  split at h
  · cases h
  · split at h
    · cases h
    · cases h
      rfl

theorem parseArrays_eq (data : Memory) (size magic c1 c2 : Nat)
    (h1 : (toInt32 c1).toNat = 0 ∨
      ((toInt32 c1).toNat * 4 ≤ 2 ^ 31 ∧ 12 + (toInt32 c1).toNat * 4 ≤ size))
    (h2 : (toInt32 c2).toNat = 0 ∨
      ((toInt32 c2).toNat * 4 ≤ 2 ^ 31 ∧ array2Offset c1 + (toInt32 c2).toNat * 4 ≤ size)) :
    parseArrays data size magic c1 c2 =
      .ok { valid := true, magic := magic, count1 := c1, count2 := c2,
            array1 := fill data 12 (toInt32 c1).toNat 0 (List.replicate c1 0),
            array2 := fill data (array2Offset c1) (toInt32 c2).toNat 0 (List.replicate c2 0),
            totalSize := requiredSize c1 c2 } := by
  have e1 := readLoop_ok data size 12 (toInt32 c1).toNat 0 (List.replicate c1 0)
    (by rcases h1 with h | h
        · exact Or.inl h
        · exact Or.inr ⟨by omega, by omega⟩)
  have e2 := readLoop_ok data size (array2Offset c1) (toInt32 c2).toNat 0 (List.replicate c2 0)
    (by rcases h2 with h | h
        · exact Or.inl h
        · exact Or.inr ⟨by omega, by omega⟩)
  simp only [parseArrays, e1, e2]

/-- A record whose exact size `12 + 4 * (c1 + c2)` fits in 32 bits, whose counts keep
`i * 4` inside `int32_t`, and which the buffer holds in full, is decoded field by field. -/
theorem parse_wellformed (data : Memory) (size c1 c2 : Nat)
    (hm : le32 data 0 = MAGIC) (hc1 : le32 data 4 = c1) (hc2 : le32 data 8 = c2)
    (hb1 : c1 ≤ 2 ^ 29) (hb2 : c2 ≤ 2 ^ 29) (hw : 12 + 4 * (c1 + c2) < 2 ^ 32)
    (hs : 12 + 4 * (c1 + c2) ≤ size) :
    parse data size =
      .ok { valid := true, magic := MAGIC, count1 := c1, count2 := c2,
            array1 := (List.range c1).map (fun i => le32 data (12 + i * 4)),
            array2 := (List.range c2).map (fun j => le32 data (12 + 4 * c1 + j * 4)),
            totalSize := 12 + 4 * (c1 + c2) } := by
  have k1 : (toInt32 c1).toNat = c1 := toInt32_toNat_of_lt (by omega)
  have k2 : (toInt32 c2).toNat = c2 := toInt32_toNat_of_lt (by omega)
  have ho : array2Offset c1 = 12 + 4 * c1 := array2Offset_exact (by omega)
  have hr : requiredSize c1 c2 = 12 + 4 * (c1 + c2) := requiredSize_exact hw
  have hlt : ¬ size < requiredSize c1 c2 := by omega
  rw [parse_ge_12 data size (by omega), hm, hc1, hc2]
  simp only [parseHeader, ne_eq, not_true_eq_false, if_false, hlt]
  rw [parseArrays_eq data size MAGIC c1 c2 (Or.inr ⟨by omega, by omega⟩)
    (Or.inr ⟨by omega, by omega⟩)]
  rw [k1, k2, ho, hr, fill_replicate, fill_replicate]

/-- Without 32-bit wrap-around, a buffer shorter than the declared record is rejected. -/
theorem parse_truncated (data : Memory) (size c1 c2 : Nat) (h12 : 12 ≤ size)
    (hc1 : le32 data 4 = c1) (hc2 : le32 data 8 = c2)
    (hw : 12 + 4 * (c1 + c2) < 2 ^ 32) (hs : size < 12 + 4 * (c1 + c2)) :
    parse data size = .ok { magic := le32 data 0, count1 := c1, count2 := c2 } := by
  have hr : requiredSize c1 c2 = 12 + 4 * (c1 + c2) := requiredSize_exact hw
  have hlt : size < requiredSize c1 c2 := by omega
  rw [parse_ge_12 data size h12, hc1, hc2]
  simp [parseHeader, hlt]

/-- When the second check passes and both loop bounds are zero or negative as
`int32_t`, no array element is read and both arrays keep the zeros of `resize`. -/
theorem parse_skipped_loops (data : Memory) (size c1 c2 : Nat) (h12 : 12 ≤ size)
    (hm : le32 data 0 = MAGIC) (hc1 : le32 data 4 = c1) (hc2 : le32 data 8 = c2)
    (h1 : c1 = 0 ∨ 2 ^ 31 ≤ c1) (h2 : c2 = 0 ∨ 2 ^ 31 ≤ c2)
    (hs : requiredSize c1 c2 ≤ size) :
    parse data size =
      .ok { valid := true, magic := MAGIC, count1 := c1, count2 := c2,
            array1 := List.replicate c1 0, array2 := List.replicate c2 0,
            totalSize := requiredSize c1 c2 } := by
  have b1 : c1 < 2 ^ 32 := hc1 ▸ le32_lt data 4
  have b2 : c2 < 2 ^ 32 := hc2 ▸ le32_lt data 8
  have k1 : (toInt32 c1).toNat = 0 := by
    rcases h1 with h | h
    · subst h; rfl
    · exact toInt32_toNat_of_ge h b1
  have k2 : (toInt32 c2).toNat = 0 := by
    rcases h2 with h | h
    · subst h; rfl
    · exact toInt32_toNat_of_ge h b2
  have hlt : ¬ size < requiredSize c1 c2 := by omega
  rw [parse_ge_12 data size h12, hm, hc1, hc2]
  simp only [parseHeader, ne_eq, not_true_eq_false, if_false, hlt]
  rw [parseArrays_eq data size MAGIC c1 c2 (Or.inl k1) (Or.inl k2), k1, k2]
  rfl

/-- When the second check passes, the first loop runs, and the buffer ends before
offset 16, the first element read leaves the buffer. -/
theorem parse_first_read_oob (data : Memory) (size c1 c2 : Nat) (h12 : 12 ≤ size)
    (hm : le32 data 0 = MAGIC) (hc1 : le32 data 4 = c1) (hc2 : le32 data 8 = c2)
    (h1 : 0 < c1) (h1u : c1 < 2 ^ 31) (hs : requiredSize c1 c2 ≤ size) (h16 : size < 16) :
    parse data size = .error .outOfBounds := by
  have k1 : (toInt32 c1).toNat = c1 := toInt32_toNat_of_lt h1u
  have hlt : ¬ size < requiredSize c1 c2 := by omega
  rw [parse_ge_12 data size h12, hm, hc1, hc2]
  simp only [parseHeader, ne_eq, not_true_eq_false, if_false, hlt]
  have e := readLoop_oob data size 12 (toInt32 c1).toNat 0 (List.replicate c1 0)
    (by omega) (by omega) (by omega)
  simp only [parseArrays, e]

theorem le32_eq_MAGIC_iff (data : Memory) :
    le32 data 0 = MAGIC ↔
      (data 0 = 0x4D ∧ data 1 = 0x59 ∧ data 2 = 0x46 ∧ data 3 = 0x4D) := by
  have h0 := (data 0).isLt
  have h1 := (data 1).isLt
  have h2 := (data 2).isLt
  have h3 := (data 3).isLt
  unfold le32 MAGIC
  constructor
  · intro h
    simp only [Nat.zero_add] at h
    refine ⟨Fin.ext ?_, Fin.ext ?_, Fin.ext ?_, Fin.ext ?_⟩
    · show (data 0).val = 77
      omega
    · show (data 1).val = 89
      omega
    · show (data 2).val = 70
      omega
    · show (data 3).val = 77
      omega
  · rintro ⟨e0, e1, e2, e3⟩
    simp only [Nat.zero_add]
    rw [e0, e1, e2, e3]
    rfl

theorem validateMagic_eq (data : Memory) (size : Nat) :
    validateMagic data size = .ok (decide (4 ≤ size ∧ le32 data 0 = MAGIC)) := by
  unfold validateMagic
  by_cases h : size < 4
  · have : ¬ 4 ≤ size := by omega
    simp [h, this]
  · have h4 : 4 ≤ size := by omega
    simp [h, h4, memcpy4_ok (show 0 + 4 ≤ size by omega)]

/-- With `count1 = 1` and a `count2` that is negative as `int32_t`, exactly one
element is read, at offset 12. -/
theorem parse_single_element (data : Memory) (size c2 : Nat)
    (hm : le32 data 0 = MAGIC) (hc1 : le32 data 4 = 1) (hc2 : le32 data 8 = c2)
    (h2 : 2 ^ 31 ≤ c2) (hs : requiredSize 1 c2 ≤ size) (h16 : 16 ≤ size) :
    parse data size =
      .ok { valid := true, magic := MAGIC, count1 := 1, count2 := c2,
            array1 := [le32 data 12], array2 := List.replicate c2 0,
            totalSize := requiredSize 1 c2 } := by
  have b2 : c2 < 2 ^ 32 := hc2 ▸ le32_lt data 8
  have k1 : (toInt32 1).toNat = 1 := rfl
  have k2 : (toInt32 c2).toNat = 0 := toInt32_toNat_of_ge h2 b2
  have hlt : ¬ size < requiredSize 1 c2 := by omega
  rw [parse_ge_12 data size (by omega), hm, hc1, hc2]
  simp only [parseHeader, ne_eq, not_true_eq_false, if_false, hlt]
  rw [parseArrays_eq data size MAGIC 1 c2 (Or.inr ⟨by omega, by omega⟩) (Or.inl k2), k1, k2]
  rfl

/-! ## The claims -/

/-- C1 (the code at the failing input): a buffer of `2 ^ 33 + 12` bytes carries the
magic, `count1 = 2 ^ 31` and `count2 = 0`, so it is at least `12 + 4 * (c1 + c2)` bytes
long; `parse` accepts it but reports `totalSize = 12`, the 32-bit wrap of
`12 + 4 * (c1 + c2)`, not the exact sum. -/
theorem C1_totalSize_wraps :
    le32 (ofList wrapBytes) 0 = MAGIC ∧ le32 (ofList wrapBytes) 4 = 2 ^ 31 ∧
    le32 (ofList wrapBytes) 8 = 0 ∧ 12 + 4 * (2 ^ 31 + 0) ≤ 2 ^ 33 + 12 ∧
    parse (ofList wrapBytes) (2 ^ 33 + 12) =
      .ok { valid := true, magic := MAGIC, count1 := 2 ^ 31, count2 := 0,
            array1 := List.replicate (2 ^ 31) 0, array2 := [], totalSize := 12 } ∧
    (12 : Nat) ≠ 12 + 4 * (2 ^ 31 + 0) := by
  refine ⟨by decide, by decide, by decide, by norm_num, ?_, by norm_num⟩
  exact parse_skipped_loops (ofList wrapBytes) (2 ^ 33 + 12) (2 ^ 31) 0 (by norm_num)
    (by decide) (by decide) (by decide) (Or.inr (le_refl _)) (Or.inl rfl) (by decide)

/-- C2 (the code at the failing input): the 16-byte buffer with `count1 = 2 ^ 31`,
`count2 = 0` and the value 1 stored at offset 12 is accepted, yet `array1[0]` is 0:
the loop bound is negative as `int32_t`, so the element at offset `12 + 4 * 0` is
never read. -/
theorem C2_array1_left_unread :
    ∃ r, parse (ofList wrapBytes16) 16 = .ok r ∧ r.valid = true ∧ r.count1 = 2 ^ 31 ∧
      r.count2 = 0 ∧ r.array1[0]? = some 0 ∧ le32 (ofList wrapBytes16) (12 + 4 * 0) = 1 := by
  refine ⟨_, parse_skipped_loops (ofList wrapBytes16) 16 (2 ^ 31) 0 (by norm_num)
    (by decide) (by decide) (by decide) (Or.inr (le_refl _)) (Or.inl rfl) (by decide),
    rfl, rfl, rfl, ?_, by decide⟩
  show (List.replicate (2 ^ 31) 0)[0]? = some 0
  rw [List.getElem?_replicate]
  exact if_pos (by norm_num)

/-- C3 (the code at the failing input): a 12-byte buffer whose header declares
`count1 = count2 = 2 ^ 31` is shorter than `12 + 4 * (c1 + c2)`, yet `parse` returns
a valid record, because the required size wraps to 12 in 32-bit arithmetic. -/
theorem C3_short_buffer_accepted :
    le32 (ofList wrapBothBytes) 0 = MAGIC ∧ le32 (ofList wrapBothBytes) 4 = 2 ^ 31 ∧
    le32 (ofList wrapBothBytes) 8 = 2 ^ 31 ∧ 12 < 12 + 4 * (2 ^ 31 + 2 ^ 31) ∧
    parse (ofList wrapBothBytes) 12 =
      .ok { valid := true, magic := MAGIC, count1 := 2 ^ 31, count2 := 2 ^ 31,
            array1 := List.replicate (2 ^ 31) 0, array2 := List.replicate (2 ^ 31) 0,
            totalSize := 12 } := by
  refine ⟨by decide, by decide, by decide, by norm_num, ?_⟩
  exact parse_skipped_loops (ofList wrapBothBytes) 12 (2 ^ 31) (2 ^ 31) (le_refl _)
    (by decide) (by decide) (by decide) (Or.inr (le_refl _)) (Or.inr (le_refl _)) (by decide)

/-- C4 (the code at the failing input): on the 12-byte buffer whose header declares
`count1 = 2 ^ 30`, `count2 = 0`, the size check passes (the required size wraps to
12) and the first iteration of the first loop reads offset 12, outside the buffer. -/
theorem C4_read_out_of_bounds :
    le32 (ofList overreadBytes) 4 = 2 ^ 30 ∧ le32 (ofList overreadBytes) 8 = 0 ∧
    parse (ofList overreadBytes) 12 = .error .outOfBounds := by
  refine ⟨by decide, by decide, ?_⟩
  exact parse_first_read_oob (ofList overreadBytes) 12 (2 ^ 30) 0 (le_refl _)
    (by decide) (by decide) (by decide) (by norm_num) (by norm_num) (by decide) (by norm_num)

/-- C5: on every buffer shorter than 12 bytes `parse` returns an invalid record. -/
theorem C5_short_header_invalid (data : Memory) (size : Nat) (h : size < 12) :
    ∃ r, parse data size = .ok r ∧ r.valid = false :=
  ⟨{}, parse_lt_12 data size h, rfl⟩

theorem C5_short_header_invalid_witness :
    (0 < 12) ∧ ∃ r, parse (ofList []) 0 = .ok r ∧ r.valid = false :=
  ⟨by decide, C5_short_header_invalid (ofList []) 0 (by decide)⟩

/-- C6: on every buffer of at least 4 bytes whose first four bytes, read little-endian,
differ from `MAGIC`, `parse` returns an invalid record, whatever the size and the
remaining bytes are. -/
theorem C6_bad_magic_invalid (data : Memory) (size : Nat) (_h4 : 4 ≤ size)
    (hm : le32 data 0 ≠ MAGIC) :
    ∃ r, parse data size = .ok r ∧ r.valid = false := by
  by_cases h : size < 12
  · exact ⟨{}, parse_lt_12 data size h, rfl⟩
  · refine ⟨{ magic := le32 data 0, count1 := le32 data 4, count2 := le32 data 8 }, ?_, rfl⟩
    rw [parse_ge_12 data size (by omega)]
    simp [parseHeader, hm]

theorem C6_bad_magic_invalid_witness :
    4 ≤ 24 ∧ le32 (ofList badMagicBytes) 0 ≠ MAGIC ∧
    ∃ r, parse (ofList badMagicBytes) 24 = .ok r ∧ r.valid = false :=
  ⟨by decide, by decide, C6_bad_magic_invalid (ofList badMagicBytes) 24 (by decide) (by decide)⟩

/-- C7 (counterexample): on the example record truncated to 20 bytes `parse` returns
an invalid record that is not the default record: it carries the header fields. -/
theorem C7_invalid_record_not_default :
    ¬ (∀ r, parse (ofList exampleBytes) 20 = .ok r → r.valid = false → r = {}) := by
  intro h
  have e : parse (ofList exampleBytes) 20 =
      .ok { valid := false, magic := MAGIC, count1 := 2, count2 := 1 } := by rfl
  have := h _ e rfl
  exact absurd this (by decide)

/-- C7 (amended): every invalid record returned by `parse` has empty arrays and
`totalSize = 0`; it is the default record when the buffer is shorter than 12 bytes, and
otherwise its `magic`, `count1` and `count2` are the little-endian header values. -/
theorem C7_invalid_record_shape (data : Memory) (size : Nat) (r : ParsedData)
    (h : parse data size = .ok r) (hv : r.valid = false) :
    r.array1 = [] ∧ r.array2 = [] ∧ r.totalSize = 0 ∧ (size < 12 → r = {}) ∧
    (12 ≤ size →
      r.magic = le32 data 0 ∧ r.count1 = le32 data 4 ∧ r.count2 = le32 data 8) := by
  by_cases h12 : size < 12
  · rw [parse_lt_12 data size h12] at h
    cases h
    exact ⟨rfl, rfl, rfl, fun _ => rfl, fun h => absurd h (by omega)⟩
  · rw [parse_ge_12 data size (by omega)] at h
    unfold parseHeader at h
    split at h
    · cases h
      exact ⟨rfl, rfl, rfl, fun h => absurd h h12, fun _ => ⟨rfl, rfl, rfl⟩⟩
    · split at h
      · cases h
        exact ⟨rfl, rfl, rfl, fun h => absurd h h12, fun _ => ⟨rfl, rfl, rfl⟩⟩
      · have := parseArrays_valid h
        rw [hv] at this
        cases this

theorem C7_invalid_record_shape_witness :
    ∃ r, parse (ofList exampleBytes) 20 = .ok r ∧ r.valid = false ∧
      (r.array1 = [] ∧ r.array2 = [] ∧ r.totalSize = 0 ∧ ((20 : Nat) < 12 → r = {}) ∧
        (12 ≤ 20 → r.magic = le32 (ofList exampleBytes) 0 ∧
          r.count1 = le32 (ofList exampleBytes) 4 ∧ r.count2 = le32 (ofList exampleBytes) 8)) :=
  ⟨{ valid := false, magic := MAGIC, count1 := 2, count2 := 1 }, rfl, rfl,
    C7_invalid_record_shape (ofList exampleBytes) 20 _ rfl rfl⟩

/-- C8 (the code at the failing input): the 24-byte example record is a valid file with
`count1 = 2` and `count2 = 1`, but `get_count` returns 0 for index 0 and for index 1,
because `parse(header, 12)` rejects a header that declares any array element. -/
theorem C8_get_count_returns_zero :
    (∃ r, parse (ofList exampleBytes) 24 = .ok r ∧ r.valid = true ∧ r.count1 = 2 ∧
      r.count2 = 1) ∧
    get_count (ofList exampleBytes) 0 = .ok 0 ∧ get_count (ofList exampleBytes) 1 = .ok 0 := by
  have e : parse (ofList exampleBytes) 24 =
      .ok { valid := true, magic := MAGIC, count1 := 2, count2 := 1, array1 := [17, 34],
            array2 := [51], totalSize := 24 } := by rfl
  exact ⟨⟨_, e, rfl, rfl, rfl⟩, by rfl, by rfl⟩

/-- C9: `validateMagic` returns true exactly when `size ≥ 4` and the first four bytes
are `4D 59 46 4D`.  On a buffer of at least 12 bytes it returns true exactly when the
magic check of `parse` passes, that is when `parse` goes on to its size check and array
loops with `magic = MAGIC`, and false exactly when `parse` takes its bad-magic return;
so it is true exactly when every record `parse` returns carries `magic = MAGIC`. -/
theorem C9_validateMagic_MYFM (data : Memory) (size : Nat) :
    validateMagic data size =
      .ok (decide (4 ≤ size ∧ data 0 = 0x4D ∧ data 1 = 0x59 ∧ data 2 = 0x46 ∧ data 3 = 0x4D)) ∧
    (12 ≤ size →
      (validateMagic data size = .ok true ↔
        parse data size =
          if size < requiredSize (le32 data 4) (le32 data 8) then
            .ok { magic := MAGIC, count1 := le32 data 4, count2 := le32 data 8 }
          else parseArrays data size MAGIC (le32 data 4) (le32 data 8)) ∧
      (validateMagic data size = .ok false ↔
        le32 data 0 ≠ MAGIC ∧
        parse data size =
          .ok { magic := le32 data 0, count1 := le32 data 4, count2 := le32 data 8 }) ∧
      (validateMagic data size = .ok true ↔
        ∀ r, parse data size = .ok r → r.magic = MAGIC) ∧
      (validateMagic data size = .ok false ↔
        ∃ r, parse data size = .ok r ∧ r.valid = false ∧ r.magic ≠ MAGIC)) := by
  have hv := validateMagic_eq data size
  have hiff := le32_eq_MAGIC_iff data
  refine ⟨?_, fun h12 => ?_⟩
  · rw [hv]
    congr 1
    simp only [hiff]
  · have h4 : 4 ≤ size := by omega
    have hp := parse_ge_12 data size h12
    by_cases hm : le32 data 0 = MAGIC
    · have hvt : validateMagic data size = .ok true := by
        rw [hv]; simp [h4, hm]
      have hcont : parse data size =
          if size < requiredSize (le32 data 4) (le32 data 8) then
            .ok { magic := MAGIC, count1 := le32 data 4, count2 := le32 data 8 }
          else parseArrays data size MAGIC (le32 data 4) (le32 data 8) := by
        rw [hp, hm]
        unfold parseHeader
        rw [if_neg (fun h => h rfl)]
      have hall : ∀ r, parse data size = .ok r → r.magic = MAGIC := by
        intro r hr
        rw [hcont] at hr
        split at hr
        · cases hr; rfl
        · unfold parseArrays at hr
          split at hr
          · cases hr
          · split at hr
            · cases hr
            · cases hr; rfl
      refine ⟨⟨fun _ => hcont, fun _ => hvt⟩, ⟨fun h => ?_, fun h => absurd hm h.1⟩,
        ⟨fun _ => hall, fun _ => hvt⟩, ⟨fun h => ?_, fun h => ?_⟩⟩
      · rw [hvt] at h
        cases h
      · rw [hvt] at h
        cases h
      · obtain ⟨r, hr, _, hne⟩ := h
        exact absurd (hall r hr) hne
    · have hvf : validateMagic data size = .ok false := by
        rw [hv]; simp [hm]
      have hbad : parse data size =
          .ok { magic := le32 data 0, count1 := le32 data 4, count2 := le32 data 8 } := by
        rw [hp]; simp [parseHeader, hm]
      have hncont : ¬ parse data size =
          if size < requiredSize (le32 data 4) (le32 data 8) then
            .ok { magic := MAGIC, count1 := le32 data 4, count2 := le32 data 8 }
          else parseArrays data size MAGIC (le32 data 4) (le32 data 8) := by
        intro h
        rw [hbad] at h
        by_cases hs : size < requiredSize (le32 data 4) (le32 data 8)
        · rw [if_pos hs] at h
          exact hm (congrArg ParsedData.magic (Except.ok.inj h))
        · rw [if_neg hs] at h
          have hval := parseArrays_valid h.symm
          cases hval
      refine ⟨⟨fun h => ?_, fun h => absurd h hncont⟩, ⟨fun _ => ⟨hm, hbad⟩, fun _ => hvf⟩,
        ⟨fun h => ?_, fun h => ?_⟩, ⟨fun _ => ⟨_, hbad, rfl, hm⟩, fun _ => hvf⟩⟩
      · rw [hvf] at h
        cases h
      · rw [hvf] at h
        cases h
      · exact absurd (h _ hbad) hm

theorem C9_validateMagic_MYFM_witness :
    12 ≤ 24 ∧ validateMagic (ofList exampleBytes) 24 = .ok true ∧
    parse (ofList exampleBytes) 24 =
      (if 24 < requiredSize (le32 (ofList exampleBytes) 4) (le32 (ofList exampleBytes) 8) then
        .ok { magic := MAGIC, count1 := le32 (ofList exampleBytes) 4,
              count2 := le32 (ofList exampleBytes) 8 }
      else parseArrays (ofList exampleBytes) 24 MAGIC (le32 (ofList exampleBytes) 4)
        (le32 (ofList exampleBytes) 8)) ∧
    parse (ofList exampleBytes) 24 =
      .ok { valid := true, magic := MAGIC, count1 := 2, count2 := 1, array1 := [17, 34],
            array2 := [51], totalSize := 24 } :=
  ⟨by decide, by rfl,
    ((C9_validateMagic_MYFM (ofList exampleBytes) 24).2 (by decide)).1.mp (by rfl), by rfl⟩

/-- C10 (the code at the failing input): the 16-byte buffer with `count1 = 1` and
`count2 = 0xFFFFFFFF` is accepted with `totalSize = 12` and `array1 = [1]`, the element
being read at offset 12, beyond `totalSize`.  Truncated to its first 12 bytes the
buffer makes `parse` read out of bounds, and a 16-byte buffer with the same first 12
bytes and another value at offset 12 gives a different record. -/
theorem C10_reads_beyond_totalSize :
    parse (ofList spillBytes) 16 =
      .ok { valid := true, magic := MAGIC, count1 := 1, count2 := 2 ^ 32 - 1,
            array1 := [1], array2 := List.replicate (2 ^ 32 - 1) 0, totalSize := 12 } ∧
    parse (ofList spillBytes) 12 = .error .outOfBounds ∧
    (∀ i, i < 12 → ofList spillBytesAlt i = ofList spillBytes i) ∧
    parse (ofList spillBytesAlt) 16 =
      .ok { valid := true, magic := MAGIC, count1 := 1, count2 := 2 ^ 32 - 1,
            array1 := [2], array2 := List.replicate (2 ^ 32 - 1) 0, totalSize := 12 } := by
  have hr : requiredSize 1 (2 ^ 32 - 1) = 12 := by decide
  refine ⟨?_, ?_, by decide, ?_⟩
  · have e := parse_single_element (ofList spillBytes) 16 (2 ^ 32 - 1) (by decide) (by decide)
      (by decide) (by norm_num) (by decide) (le_refl _)
    rw [hr, show le32 (ofList spillBytes) 12 = 1 from by decide] at e
    exact e
  · exact parse_first_read_oob (ofList spillBytes) 12 1 (2 ^ 32 - 1) (le_refl _)
      (by decide) (by decide) (by decide) (by norm_num) (by norm_num) (by decide) (by norm_num)
  · have e := parse_single_element (ofList spillBytesAlt) 16 (2 ^ 32 - 1) (by decide)
      (by decide) (by decide) (by norm_num) (by decide) (le_refl _)
    rw [hr, show le32 (ofList spillBytesAlt) 12 = 2 from by decide] at e
    exact e

/-! ## Behaviour away from 32-bit wrap-around -/

theorem le32_congr {data data2 : Memory} {n off : Nat}
    (h : ∀ i, i < n → data2 i = data i) (ho : off + 4 ≤ n) :
    le32 data2 off = le32 data off := by
  unfold le32
  rw [h off (by omega), h (off + 1) (by omega), h (off + 2) (by omega), h (off + 3) (by omega)]

/-- For a record that fits in 32 bits, the result depends only on the first
`12 + 4 * (c1 + c2)` bytes and not on the size beyond them. -/
theorem parse_stable_on_record (data data2 : Memory) (size size2 c1 c2 : Nat)
    (hm : le32 data 0 = MAGIC) (hc1 : le32 data 4 = c1) (hc2 : le32 data 8 = c2)
    (hb1 : c1 ≤ 2 ^ 29) (hb2 : c2 ≤ 2 ^ 29) (hw : 12 + 4 * (c1 + c2) < 2 ^ 32)
    (hs : 12 + 4 * (c1 + c2) ≤ size) (hs2 : 12 + 4 * (c1 + c2) ≤ size2)
    (hagree : ∀ i, i < 12 + 4 * (c1 + c2) → data2 i = data i) :
    parse data2 size2 = parse data size := by
  have hm2 : le32 data2 0 = MAGIC := (le32_congr hagree (by omega)).trans hm
  have hc12 : le32 data2 4 = c1 := (le32_congr hagree (by omega)).trans hc1
  have hc22 : le32 data2 8 = c2 := (le32_congr hagree (by omega)).trans hc2
  rw [parse_wellformed data size c1 c2 hm hc1 hc2 hb1 hb2 hw hs,
    parse_wellformed data2 size2 c1 c2 hm2 hc12 hc22 hb1 hb2 hw hs2]
  have a1 : (List.range c1).map (fun i => le32 data2 (12 + i * 4)) =
      (List.range c1).map (fun i => le32 data (12 + i * 4)) := by
    apply List.map_congr_left
    intro i hi
    have := List.mem_range.mp hi
    exact le32_congr hagree (by omega)
  have a2 : (List.range c2).map (fun j => le32 data2 (12 + 4 * c1 + j * 4)) =
      (List.range c2).map (fun j => le32 data (12 + 4 * c1 + j * 4)) := by
    apply List.map_congr_left
    intro j hj
    have := List.mem_range.mp hj
    exact le32_congr hagree (by omega)
  rw [a1, a2]

/-- For header counts that keep every 32-bit computation exact, `parse` returns a
record on every buffer: no access leaves the buffer. -/
theorem parse_no_fault (data : Memory) (size : Nat)
    (hb1 : le32 data 4 ≤ 2 ^ 29) (hb2 : le32 data 8 ≤ 2 ^ 29)
    (hw : 12 + 4 * (le32 data 4 + le32 data 8) < 2 ^ 32) :
    ∃ r, parse data size = .ok r := by
  by_cases h12 : size < 12
  · exact ⟨_, parse_lt_12 data size h12⟩
  · by_cases hm : le32 data 0 = MAGIC
    · by_cases hs : size < 12 + 4 * (le32 data 4 + le32 data 8)
      · exact ⟨_, parse_truncated data size _ _ (by omega) rfl rfl hw hs⟩
      · exact ⟨_, parse_wellformed data size _ _ hm rfl rfl hb1 hb2 hw (by omega)⟩
    · refine ⟨{ magic := le32 data 0, count1 := le32 data 4, count2 := le32 data 8 }, ?_⟩
      rw [parse_ge_12 data size (by omega)]
      simp [parseHeader, hm]

/-- A header that declares at least one element, in a record that fits in 32 bits,
makes `get_count` return 0 for every index. -/
theorem get_count_zero (file : Memory) (index : Nat)
    (hpos : 0 < le32 file 4 + le32 file 8)
    (hw : 12 + 4 * (le32 file 4 + le32 file 8) < 2 ^ 32) :
    get_count file index = .ok 0 := by
  have e := parse_truncated file 12 _ _ (le_refl _) rfl rfl hw (by omega)
  simp only [get_count, e]
  rfl

/-! ## The scenarios of the specification -/

theorem example_record_parses :
    exampleBytes.length = 24 ∧
    parse (ofList exampleBytes) 24 =
      .ok { valid := true, magic := MAGIC, count1 := 2, count2 := 1, array1 := [17, 34],
            array2 := [51], totalSize := 24 } :=
  ⟨by decide, by rfl⟩

theorem example_record_truncated :
    ∃ r, parse (ofList exampleBytes) 20 = .ok r ∧ r.valid = false :=
  ⟨_, by rfl, rfl⟩

theorem example_record_bad_magic :
    ∃ r, parse (ofList badMagicBytes) 24 = .ok r ∧ r.valid = false :=
  ⟨_, by rfl, rfl⟩

/-! ## The pattern tree -/

theorem u64_of_lt {n : Nat} (h : n < 2 ^ 64) : u64 n = n :=
  Nat.mod_eq_of_lt h

theorem arrayEntries_succ (offset n : Nat) :
    arrayEntries offset (n + 1) =
      arrayEntries offset n ++
        [{ offset := u64 (offset + u64 (n * 4)), size := 4, typeName := "u32",
           variableName := none, arrayIndex := some n }] := by
  unfold arrayEntries
  rw [List.range_succ, List.map_append]
  rfl

theorem arrayEntries_length (offset n : Nat) : (arrayEntries offset n).length = n := by
  unfold arrayEntries
  rw [List.length_map, List.length_range]

theorem arrayEntries_getElem? (offset n i : Nat) (h : i < n) :
    (arrayEntries offset n)[i]? =
      some { offset := u64 (offset + u64 (i * 4)), size := 4, typeName := "u32",
             variableName := none, arrayIndex := some i } := by
  unfold arrayEntries
  rw [List.getElem?_map, List.getElem?_range h]
  rfl

theorem arrayEntries_sizes (offset : Nat) :
    ∀ n, ((arrayEntries offset n).map (fun l => l.size)).sum = 4 * n
  | 0 => rfl
  | n + 1 => by
    rw [arrayEntries_succ, List.map_append, List.sum_append, arrayEntries_sizes offset n]
    simp only [List.map_cons, List.map_nil, List.sum_cons, List.sum_nil]
    omega

theorem tiles_append :
    ∀ (l1 l2 : List LeafPattern) (start mid stop : Nat),
      tiles start l1 mid → tiles mid l2 stop → tiles start (l1 ++ l2) stop
  | [], l2, start, mid, stop, h1, h2 => by
    simp only [tiles] at h1
    subst h1
    exact h2
  | p :: ps, l2, start, mid, stop, h1, h2 => by
    simp only [tiles, List.cons_append] at h1 ⊢
    exact ⟨h1.1, tiles_append ps l2 _ mid stop h1.2 h2⟩

theorem tiles_sum :
    ∀ (l : List LeafPattern) (start stop : Nat),
      tiles start l stop → start + (l.map (fun p => p.size)).sum = stop
  | [], start, stop, h => by
    simp only [tiles] at h
    simp [h]
  | p :: ps, start, stop, h => by
    simp only [tiles] at h
    have := tiles_sum ps _ stop h.2
    simp only [List.map_cons, List.sum_cons]
    omega

theorem tiles_arrayEntries (offset : Nat) :
    ∀ n, offset + 4 * n ≤ 2 ^ 64 → tiles offset (arrayEntries offset n) (offset + 4 * n)
  | 0, _ => by
    simp [arrayEntries, tiles]
  | n + 1, h => by
    rw [arrayEntries_succ]
    apply tiles_append _ _ offset (offset + 4 * n) _ (tiles_arrayEntries offset n (by omega))
    have e1 : u64 (n * 4) = n * 4 := u64_of_lt (by omega)
    have e2 : u64 (offset + n * 4) = offset + n * 4 := u64_of_lt (by omega)
    simp only [tiles, e1, e2]
    omega

theorem isEmpty_eq_decide_length (l : List Nat) : l.isEmpty = decide (l.length = 0) := by
  cases l <;> rfl

/-- The tree built for any record whose elements fit below `2 ^ 64` from the base
offset: three header fields, then one array pattern per non-empty array. -/
theorem createPattern_layout (cv : Nat) (d : ParsedData) (B : Nat)
    (hB : B + 12 + 4 * (d.array1.length + d.array2.length) < 2 ^ 64) :
    createPatternFromParsedData cv d B =
      { offset := B, size := d.totalSize, typeName := "MyFormat", variableName := some "file",
        entries :=
          [.leaf { offset := B, size := 4, typeName := "char[]",
                   variableName := some "magic", arrayIndex := none },
           .leaf { offset := B + 4, size := 4, typeName := "u32",
                   variableName := some "count1", arrayIndex := none },
           .leaf { offset := B + 8, size := 4, typeName := "u32",
                   variableName := some "count2", arrayIndex := none }] ++
          (if d.array1.length = 0 then []
           else [.array { offset := B + 12, size := u64 (cv * 4), typeName := "u32",
                          variableName := some "array1",
                          entries := arrayEntries (B + 12) d.array1.length }]) ++
          (if d.array2.length = 0 then []
           else [.array { offset := B + 12 + 4 * d.array1.length,
                          size := 4 * d.array2.length, typeName := "u32",
                          variableName := some "array2",
                          entries := arrayEntries (B + 12 + 4 * d.array1.length)
                            d.array2.length }]) } := by
  have o1 : u64 (B + 4) = B + 4 := u64_of_lt (by omega)
  have o2 : u64 (B + 4 + 4) = B + 8 := u64_of_lt (by omega)
  have o3 : u64 (B + 8 + 4) = B + 12 := u64_of_lt (by omega)
  have s1 : u64 (d.array1.length * 4) = d.array1.length * 4 := u64_of_lt (by omega)
  have s2 : u64 (d.array2.length * 4) = 4 * d.array2.length :=
    (u64_of_lt (by omega)).trans (Nat.mul_comm _ _)
  have o4 : u64 (B + 12 + d.array1.length * 4) = B + 12 + 4 * d.array1.length :=
    (u64_of_lt (by omega)).trans (by omega)
  unfold createPatternFromParsedData
  simp only [o1, o2, o3, s1, s2, o4, isEmpty_eq_decide_length, decide_eq_true_eq]
  by_cases h1 : d.array1.length = 0
  · by_cases h2 : d.array2.length = 0
    · simp [h1, h2]
    · simp [h1, h2]
  · by_cases h2 : d.array2.length = 0
    · simp [h1, h2]
    · simp [h1, h2]

theorem createPattern_offset_size (cv : Nat) (d : ParsedData) (B : Nat) :
    (createPatternFromParsedData cv d B).offset = B ∧
    (createPatternFromParsedData cv d B).size = d.totalSize :=
  ⟨rfl, rfl⟩

/-- The leaves of the tree: the three header fields and one pattern per element. -/
theorem createPattern_leaves (cv : Nat) (d : ParsedData) (B : Nat)
    (hB : B + 12 + 4 * (d.array1.length + d.array2.length) < 2 ^ 64) :
    (createPatternFromParsedData cv d B).leaves =
      [{ offset := B, size := 4, typeName := "char[]", variableName := some "magic",
         arrayIndex := none },
       { offset := B + 4, size := 4, typeName := "u32", variableName := some "count1",
         arrayIndex := none },
       { offset := B + 8, size := 4, typeName := "u32", variableName := some "count2",
         arrayIndex := none }] ++
      (arrayEntries (B + 12) d.array1.length ++
        arrayEntries (B + 12 + 4 * d.array1.length) d.array2.length) := by
  rw [createPattern_layout cv d B hB]
  unfold StructPattern.leaves
  by_cases h1 : d.array1.length = 0
  · by_cases h2 : d.array2.length = 0
    · simp [h1, h2, Member.leaves, arrayEntries]
    · simp [h1, h2, Member.leaves, arrayEntries]
  · by_cases h2 : d.array2.length = 0
    · simp [h1, h2, Member.leaves, arrayEntries]
    · simp [h1, h2, Member.leaves]

/-- The leaves lie end to end from the base offset over `12 + 4 * (n1 + n2)` bytes. -/
theorem createPattern_tiles (cv : Nat) (d : ParsedData) (B : Nat)
    (hB : B + 12 + 4 * (d.array1.length + d.array2.length) < 2 ^ 64) :
    tiles B (createPatternFromParsedData cv d B).leaves
      (B + (12 + 4 * (d.array1.length + d.array2.length))) := by
  rw [createPattern_leaves cv d B hB]
  have t1 := tiles_arrayEntries (B + 12) d.array1.length (by omega)
  have t2 := tiles_arrayEntries (B + 12 + 4 * d.array1.length) d.array2.length (by omega)
  have t := tiles_append _ _ _ _ _ t1 t2
  have e : B + 12 + 4 * d.array1.length + 4 * d.array2.length =
      B + (12 + 4 * (d.array1.length + d.array2.length)) := by omega
  rw [e] at t
  simp only [List.cons_append, List.nil_append, tiles, true_and]
  exact t

theorem createPattern_leafSizes (cv : Nat) (d : ParsedData) (B : Nat)
    (hB : B + 12 + 4 * (d.array1.length + d.array2.length) < 2 ^ 64) :
    (createPatternFromParsedData cv d B).leafSizes =
      12 + 4 * (d.array1.length + d.array2.length) := by
  have h := tiles_sum _ _ _ (createPattern_tiles cv d B hB)
  unfold StructPattern.leafSizes
  omega

/-! ## Records returned by the parser, as input of the pattern tree -/

theorem readLoop_length (data : Memory) (size base : Nat) :
    ∀ (k i : Nat) (arr r : List Nat),
      readLoop data size base k i arr = .ok r → r.length = arr.length
  | 0, _, arr, r, h => by
    simp only [readLoop] at h
    cases h
    rfl
  | k + 1, i, arr, r, h => by
    unfold readLoop at h
    split at h
    · cases h
    · split at h
      · cases h
      · have := readLoop_length data size base k (i + 1) _ r h
        rw [this, List.length_set]

/-- What every valid record returned by `parse` satisfies, wrap-around included. -/
theorem parse_valid_inv (data : Memory) (size : Nat) (r : ParsedData)
    (h : parse data size = .ok r) (hv : r.valid = true) :
    12 ≤ size ∧ r.magic = MAGIC ∧ r.count1 = le32 data 4 ∧ r.count2 = le32 data 8 ∧
    r.array1.length = r.count1 ∧ r.array2.length = r.count2 ∧
    r.totalSize = requiredSize r.count1 r.count2 ∧ r.totalSize ≤ size := by
  by_cases h12 : size < 12
  · rw [parse_lt_12 data size h12] at h
    cases h
    cases hv
  · rw [parse_ge_12 data size (by omega)] at h
    unfold parseHeader at h
    split at h
    · cases h
      cases hv
    · rename_i hm
      split at h
      · cases h
        cases hv
      · rename_i hs
        unfold parseArrays at h
        split at h
        · cases h
        · rename_i a1 e1
          split at h
          · cases h
          · rename_i a2 e2
            cases h
            have l1 := readLoop_length data size _ _ _ _ _ e1
            have l2 := readLoop_length data size _ _ _ _ _ e2
            rw [List.length_replicate] at l1 l2
            refine ⟨by omega, ?_, rfl, rfl, l1, l2, rfl, ?_⟩
            · exact Classical.not_not.mp hm
            · show requiredSize (le32 data 4) (le32 data 8) ≤ size
              omega

/-- For a valid record returned by `parse` whose exact size fits in 32 bits, and a base
offset that keeps the record below `2 ^ 64`, the tree mirrors the file layout and its
leaves tile the range of the root. -/
theorem createPattern_of_parse (cv : Nat) (data : Memory) (size : Nat) (r : ParsedData)
    (B : Nat) (h : parse data size = .ok r) (hv : r.valid = true)
    (hw : 12 + 4 * (r.count1 + r.count2) < 2 ^ 32) (hB : B + r.totalSize < 2 ^ 64) :
    createPatternFromParsedData cv r B =
      { offset := B, size := r.totalSize, typeName := "MyFormat", variableName := some "file",
        entries :=
          [.leaf { offset := B, size := 4, typeName := "char[]",
                   variableName := some "magic", arrayIndex := none },
           .leaf { offset := B + 4, size := 4, typeName := "u32",
                   variableName := some "count1", arrayIndex := none },
           .leaf { offset := B + 8, size := 4, typeName := "u32",
                   variableName := some "count2", arrayIndex := none }] ++
          (if r.count1 = 0 then []
           else [.array { offset := B + 12, size := u64 (cv * 4), typeName := "u32",
                          variableName := some "array1",
                          entries := arrayEntries (B + 12) r.count1 }]) ++
          (if r.count2 = 0 then []
           else [.array { offset := B + 12 + 4 * r.count1,
                          size := 4 * r.count2, typeName := "u32",
                          variableName := some "array2",
                          entries := arrayEntries (B + 12 + 4 * r.count1) r.count2 }]) } ∧
    tiles B (createPatternFromParsedData cv r B).leaves (B + r.totalSize) ∧
    (createPatternFromParsedData cv r B).leafSizes = r.totalSize := by
  obtain ⟨_, _, _, _, l1, l2, ht, _⟩ := parse_valid_inv data size r h hv
  have hr : r.totalSize = 12 + 4 * (r.count1 + r.count2) := by
    rw [ht, requiredSize_exact hw]
  have hB2 : B + 12 + 4 * (r.array1.length + r.array2.length) < 2 ^ 64 := by
    rw [l1, l2]; omega
  refine ⟨?_, ?_, ?_⟩
  · have e := createPattern_layout cv r B hB2
    rw [l1, l2] at e
    exact e
  · have e := createPattern_tiles cv r B hB2
    rw [l1, l2, ← hr] at e
    exact e
  · have e := createPattern_leafSizes cv r B hB2
    rw [l1, l2, ← hr] at e
    exact e

theorem createPattern_array1_member (cv : Nat) (d : ParsedData) (B : Nat)
    (hB : B + 12 + 4 * (d.array1.length + d.array2.length) < 2 ^ 64)
    (h1 : d.array1.length ≠ 0) :
    (createPatternFromParsedData cv d B).entries[3]? =
      some (.array { offset := B + 12, size := u64 (cv * 4), typeName := "u32",
                     variableName := some "array1",
                     entries := arrayEntries (B + 12) d.array1.length }) := by
  rw [createPattern_layout cv d B hB]
  simp [h1]

/-- The tree built for a record whose arrays are the zero-filled vectors of `resize`. -/
theorem createPattern_zero_filled (cv m c1 c2 n1 n2 t B : Nat)
    (hB : B + 12 + 4 * (n1 + n2) < 2 ^ 64) (h1 : n1 ≠ 0) :
    (createPatternFromParsedData cv
        { valid := true, magic := m, count1 := c1, count2 := c2,
          array1 := List.replicate n1 0, array2 := List.replicate n2 0, totalSize := t }
        B).entries[3]? =
      some (.array { offset := B + 12, size := u64 (cv * 4), typeName := "u32",
                     variableName := some "array1", entries := arrayEntries (B + 12) n1 }) ∧
    (createPatternFromParsedData cv
        { valid := true, magic := m, count1 := c1, count2 := c2,
          array1 := List.replicate n1 0, array2 := List.replicate n2 0, totalSize := t }
        B).leafSizes = 12 + 4 * (n1 + n2) := by
  have hm := createPattern_array1_member cv
    { valid := true, magic := m, count1 := c1, count2 := c2,
      array1 := List.replicate n1 0, array2 := List.replicate n2 0, totalSize := t }
    B (by simpa using hB) (by simpa using h1)
  have hs := createPattern_leafSizes cv
    { valid := true, magic := m, count1 := c1, count2 := c2,
      array1 := List.replicate n1 0, array2 := List.replicate n2 0, totalSize := t }
    B (by simpa using hB)
  simp only [List.length_replicate] at hm hs
  exact ⟨hm, hs⟩

/-- C11 (the code at the failing input): `parse` accepts the 12-byte buffer whose header
declares `count1 = 2 ^ 31`, `count2 = 0` with `totalSize = 12`, so the root built at base
offset 0 covers `[0, 12)`; the `array1` member is present with `2 ^ 31` element
patterns, the first of them at offset 12, past the end of the root, and the sizes of the
header fields and element patterns sum to `12 + 4 * 2 ^ 31`, not to `totalSize`. -/
theorem C11_elements_overrun_root :
    ∃ r, parse (ofList wrapBytes) 12 = .ok r ∧ r.valid = true ∧ r.count1 = 2 ^ 31 ∧
      r.count2 = 0 ∧ r.totalSize = 12 ∧
      (createPatternFromParsedData (2 ^ 31) r 0).offset = 0 ∧
      (createPatternFromParsedData (2 ^ 31) r 0).size = 12 ∧
      (createPatternFromParsedData (2 ^ 31) r 0).entries[3]? =
        some (.array { offset := 12, size := 2 ^ 33, typeName := "u32",
                       variableName := some "array1",
                       entries := arrayEntries 12 (2 ^ 31) }) ∧
      (arrayEntries 12 (2 ^ 31)).length = 2 ^ 31 ∧
      (arrayEntries 12 (2 ^ 31))[0]? =
        some { offset := 12, size := 4, typeName := "u32", variableName := none,
               arrayIndex := some 0 } ∧
      (createPatternFromParsedData (2 ^ 31) r 0).leafSizes = 12 + 4 * 2 ^ 31 ∧
      12 + 4 * 2 ^ 31 ≠ 12 := by
  have hp := parse_skipped_loops (ofList wrapBytes) 12 (2 ^ 31) 0 (le_refl _)
    (by decide) (by decide) (by decide) (Or.inr (le_refl _)) (Or.inl rfl) (by decide)
  have hr : requiredSize (2 ^ 31) 0 = 12 := by decide
  rw [hr] at hp
  have hz := createPattern_zero_filled (2 ^ 31) MAGIC (2 ^ 31) 0 (2 ^ 31) 0 12 0
    (by norm_num) (by norm_num)
  have hu : u64 (2 ^ 31 * 4) = 2 ^ 33 := by decide
  have he := arrayEntries_getElem? 12 (2 ^ 31) 0 (by norm_num)
  have ho : u64 (12 + u64 (0 * 4)) = 12 := by decide
  rw [ho] at he
  rw [hu, Nat.zero_add, Nat.add_zero] at hz
  exact ⟨_, hp, rfl, rfl, rfl, rfl, rfl, rfl, hz.1, arrayEntries_length _ _, he, hz.2,
    by norm_num⟩

end MyFormat
